import Mathlib

/-!
Verification development for mjpeg-proxy (Go).

Shallow embedding of the components the specification talks about:
MD5 and the digest authentication builder (digest.go / chunker.go),
the chunker decode loop (chunker.go, Chunker.Start), the connect logic
(chunker.go, Chunker.Connect), the broadcast hub event loop (pubsub.go),
and the per-client HTTP handler (pubsub.go, PubSub.ServeHTTP).

Machine integers are modelled as Nat with explicit reduction mod 2^32
where the Go code uses uint32 arithmetic (inside MD5).  Strings are
ASCII in every input of interest; Go byte strings are modelled as
`List Nat` with each entry < 256, converted from `String` via
`Char.toNat` (exact for ASCII).
-/

namespace MD5

/-- 2^32, the modulus of uint32 arithmetic. -/
def M32 : Nat := 4294967296

/-- uint32 addition. -/
def add32 (a b : Nat) : Nat := (a + b) % M32

/-- uint32 bitwise complement (argument assumed < 2^32). -/
def lnot32 (a : Nat) : Nat := 4294967295 - a

/-- uint32 left rotation by `s` bits (0 ≤ s ≤ 32, argument < 2^32).
The low `32 - s` bits move up, the high `s` bits wrap to the bottom;
the two pieces occupy disjoint bit ranges so `+` equals bitwise or. -/
def rotl32 (a s : Nat) : Nat := (a % 2 ^ (32 - s)) * 2 ^ s + a / 2 ^ (32 - s)

/-- The 64 MD5 sine-derived constants T[i+1] = floor(2^32 * abs(sin(i+1))). -/
def md5K : List Nat :=
  [0xd76aa478, 0xe8c7b756, 0x242070db, 0xc1bdceee,
   0xf57c0faf, 0x4787c62a, 0xa8304613, 0xfd469501,
   0x698098d8, 0x8b44f7af, 0xffff5bb1, 0x895cd7be,
   0x6b901122, 0xfd987193, 0xa679438e, 0x49b40821,
   0xf61e2562, 0xc040b340, 0x265e5a51, 0xe9b6c7aa,
   0xd62f105d, 0x02441453, 0xd8a1e681, 0xe7d3fbc8,
   0x21e1cde6, 0xc33707d6, 0xf4d50d87, 0x455a14ed,
   0xa9e3e905, 0xfcefa3f8, 0x676f02d9, 0x8d2a4c8a,
   0xfffa3942, 0x8771f681, 0x6d9d6122, 0xfde5380c,
   0xa4beea44, 0x4bdecfa9, 0xf6bb4b60, 0xbebfbc70,
   0x289b7ec6, 0xeaa127fa, 0xd4ef3085, 0x04881d05,
   0xd9d4d039, 0xe6db99e5, 0x1fa27cf8, 0xc4ac5665,
   0xf4292244, 0x432aff97, 0xab9423a7, 0xfc93a039,
   0x655b59c3, 0x8f0ccc92, 0xffeff47d, 0x85845dd1,
   0x6fa87e4f, 0xfe2ce6e0, 0xa3014314, 0x4e0811a1,
   0xf7537e82, 0xbd3af235, 0x2ad7d2bb, 0xeb86d391]

/-- The 64 per-step left-rotation amounts. -/
def md5S : List Nat :=
  [7, 12, 17, 22, 7, 12, 17, 22, 7, 12, 17, 22, 7, 12, 17, 22,
   5, 9, 14, 20, 5, 9, 14, 20, 5, 9, 14, 20, 5, 9, 14, 20,
   4, 11, 16, 23, 4, 11, 16, 23, 4, 11, 16, 23, 4, 11, 16, 23,
   6, 10, 15, 21, 6, 10, 15, 21, 6, 10, 15, 21, 6, 10, 15, 21]

/-- The nonlinear function of step `i` applied to state words b, c, d. -/
def md5F (b c d i : Nat) : Nat :=
  if i < 16 then Nat.lor (Nat.land b c) (Nat.land (lnot32 b) d)
  else if i < 32 then Nat.lor (Nat.land d b) (Nat.land (lnot32 d) c)
  else if i < 48 then Nat.xor b (Nat.xor c d)
  else Nat.xor c (Nat.lor b (lnot32 d))

/-- The message word index used at step `i`. -/
def md5G (i : Nat) : Nat :=
  if i < 16 then i
  else if i < 32 then (5 * i + 1) % 16
  else if i < 48 then (3 * i + 5) % 16
  else (7 * i) % 16

/-- The four-word MD5 chaining state. -/
structure St where
  a : Nat
  b : Nat
  c : Nat
  d : Nat
deriving Repr, DecidableEq

/-- The initial chaining state. -/
def initSt : St := ⟨0x67452301, 0xefcdab89, 0x98badcfe, 0x10325476⟩

/-- One of the 64 steps of a block computation, on message words `w`. -/
def md5Step (w : List Nat) (st : St) (i : Nat) : St :=
  let f := add32 (add32 (add32 st.a (md5F st.b st.c st.d i)) (md5K.getD i 0))
    (w.getD (md5G i) 0)
  ⟨st.d, add32 st.b (rotl32 f (md5S.getD i 0)), st.b, st.c⟩

/-- Process one 16-word block, adding the result into the chaining state. -/
def md5Block (st : St) (w : List Nat) : St :=
  let e := (List.range 64).foldl (md5Step w) st
  ⟨add32 st.a e.a, add32 st.b e.b, add32 st.c e.c, add32 st.d e.d⟩

/-- `k` bytes of `n`, little endian. -/
def toLEBytes : Nat → Nat → List Nat
  | _, 0 => []
  | n, k + 1 => n % 256 :: toLEBytes (n / 256) k

/-- Group a byte list into 32-bit little-endian words. -/
def toWords : List Nat → List Nat
  | b0 :: b1 :: b2 :: b3 :: rest =>
      (b0 + 256 * b1 + 65536 * b2 + 16777216 * b3) :: toWords rest
  | _ => []

/-- Split a byte list into 64-byte chunks, structurally recursive on a
fuel bound so that it reduces in the kernel; `chunks64` instantiates the
fuel with the list length, which always suffices. -/
def chunksAux : Nat → List Nat → List (List Nat)
  | 0, _ => []
  | _, [] => []
  | fuel + 1, x :: rest => (x :: rest).take 64 :: chunksAux fuel ((x :: rest).drop 64)

/-- Split a byte list into 64-byte chunks (the input length is a
multiple of 64 after padding). -/
def chunks64 (l : List Nat) : List (List Nat) := chunksAux l.length l

/-- MD5 padding: a 0x80 byte, zeros to 56 mod 64, then the bit length
as a 64-bit little-endian quantity. -/
def padMsg (msg : List Nat) : List Nat :=
  let z := (119 - msg.length % 64) % 64
  msg ++ [128] ++ List.replicate z 0 ++ toLEBytes (msg.length * 8 % 2 ^ 64) 8

/-- The 16-byte MD5 digest of a byte list. -/
def md5Bytes (msg : List Nat) : List Nat :=
  let final := ((chunks64 (padMsg msg)).map toWords).foldl md5Block initSt
  toLEBytes final.a 4 ++ toLEBytes final.b 4 ++ toLEBytes final.c 4 ++
    toLEBytes final.d 4

/-- ASCII code of the lowercase hex digit for n < 16. -/
def hexDigit (n : Nat) : Nat := if n < 10 then 48 + n else 87 + n

/-- The two lowercase hex digit codes of one byte. -/
def byteHex (b : Nat) : List Nat := [hexDigit (b / 16), hexDigit (b % 16)]

/-- Lowercase hex rendering of a byte list, as ASCII bytes. -/
def bytesHex (bs : List Nat) : List Nat := (bs.map byteHex).flatten

/-- The lowercase-hex MD5 digest of a byte string: the model of the Go
pattern `fmt.Sprintf("%x", md5.Sum(...))`.  Go strings are byte slices;
they are modelled as `List Nat` with entries < 256. -/
def md5Hex (s : List Nat) : List Nat := bytesHex (md5Bytes s)

end MD5

/-- The bytes of an ASCII string literal, for writing down concrete
byte-string inputs. -/
def ascii (s : String) : List Nat := s.data.map Char.toNat

/-! ## Go string helpers (digest.go, chunker.go)

Go strings are byte slices; the helpers below model the exact
`strings` package functions the source uses, on `List Nat`. -/

/-- ASCII whitespace, as recognised by Go strings.TrimSpace on the
ASCII inputs of interest (space, tab, newline, vertical tab, form
feed, carriage return). -/
def isSpaceByte (c : Nat) : Bool :=
  c == 32 || c == 9 || c == 10 || c == 11 || c == 12 || c == 13

/-- Go strings.TrimSpace. -/
def goTrimSpace (s : List Nat) : List Nat :=
  ((s.dropWhile isSpaceByte).reverse.dropWhile isSpaceByte).reverse

/-- Go strings.Split with a one-byte separator: always returns at
least one element, empty input gives one empty field. -/
def goSplit (sep : Nat) : List Nat → List (List Nat)
  | [] => [[]]
  | c :: rest =>
      match goSplit sep rest with
      | [] => [[]]
      | g :: gs => if c == sep then [] :: g :: gs else (c :: g) :: gs

/-- Go strings.SplitN with count 2 and a one-byte separator: splits at
the first occurrence only; a separator-free input gives a one-element
result. -/
def goSplitN2 (sep : Nat) : List Nat → List (List Nat)
  | [] => [[]]
  | c :: rest =>
      if c == sep then [[], rest]
      else
        match goSplitN2 sep rest with
        | [] => [[c]]
        | g :: gs => (c :: g) :: gs

/-- Go strings.Trim with cutset the double-quote character: removes
every leading and trailing quote byte (34). -/
def goTrimQuote (s : List Nat) : List Nat :=
  ((s.dropWhile (fun c => c == 34)).reverse.dropWhile (fun c => c == 34)).reverse

/-- Go strings.TrimPrefix (named goTrimPfx here). -/
def goTrimPfx (pre s : List Nat) : List Nat :=
  if pre.isPrefixOf s then s.drop pre.length else s

/-- Go strings.HasPrefix (named goHasPfx here). -/
def goHasPfx (pre s : List Nat) : Bool := pre.isPrefixOf s

/-- Last-write-wins lookup in an insertion-ordered association list:
the model of reading a Go map built by successive assignments; a
missing key yields the zero value, the empty string. -/
def mapGet (m : List (List Nat × List Nat)) (k : List Nat) : List Nat :=
  match m.reverse.find? (fun kv => kv.1 == k) with
  | some kv => kv.2
  | none => []

/-- Key-presence test for the same association-list map model. -/
def mapHas (m : List (List Nat × List Nat)) (k : List Nat) : Bool :=
  (m.find? (fun kv => kv.1 == k)).isSome

/-! ## Digest authentication (digest.go digestAuthBuild; the chunker.go
method of the same name is textually identical in its computation, the
method obtains the uri from the chunker source URL) -/

/-- One iteration of the challenge-parsing loop of digestAuthBuild:
trim the segment, split at the first equals sign, record the key with
the quote-trimmed value, and remember whether a qop list element
equals auth.  `none` models the Go panic on the unguarded kv[1] when
the segment holds no equals sign. -/
def parseSegment (acc : Option (List (List Nat × List Nat) × Bool)) (part : List Nat) :
    Option (List (List Nat × List Nat) × Bool) :=
  match acc with
  | none => none
  | some (m, q) =>
      match goSplitN2 61 (goTrimSpace part) with
      | [key, raw] =>
          let val := goTrimQuote raw
          let q2 := if key == ascii "qop" then
              (q || (goSplit 44 val).any (fun s => s == ascii "auth"))
            else q
          some (m ++ [(key, val)], q2)
      | _ => none

/-- The challenge-parsing loop of digestAuthBuild over the
comma-separated segments, producing the authMap and the authQop flag. -/
def parseChallenge (auth : List Nat) : Option (List (List Nat × List Nat) × Bool) :=
  (goSplit 44 auth).foldl parseSegment (some ([], false))

/-- The colon byte. -/
def colonB : List Nat := [58]

/-- digest.go digestAuthBuild, with the WWW-Authenticate header value
and the (random in Go, injected here) cnonce as inputs.  Returns the
Authorization value; `none` models the index-out-of-range panic of the
parsing loop.  Mirrors the source line by line: a1/h1, a2/h2, nc, the
response hash, and the result string with its qop and opaque suffixes. -/
def digestAuthBuild (username password uri header cnonce : List Nat) :
    Option (List Nat) :=
  let auth := goTrimPfx (ascii "Digest ") header
  match parseChallenge auth with
  | none => none
  | some (authMap, authQop) =>
      let a1 := username ++ colonB ++ mapGet authMap (ascii "realm") ++ colonB ++ password
      let h1hex := MD5.md5Hex a1
      let a2 := ascii "GET:" ++ uri
      let h2hex := MD5.md5Hex a2
      let nc := ascii "00000001"
      let a := h1hex ++ colonB ++ mapGet authMap (ascii "nonce") ++ colonB ++
        (if authQop then nc ++ colonB ++ cnonce ++ colonB ++ ascii "auth" ++ colonB else []) ++
        h2hex
      let response := MD5.md5Hex a
      let result := ascii "username=\"" ++ username ++ ascii "\", realm=\"" ++
        mapGet authMap (ascii "realm") ++ ascii "\", nonce=\"" ++
        mapGet authMap (ascii "nonce") ++ ascii "\", response=\"" ++ response ++
        ascii "\", uri=\"" ++ uri ++ [34]
      let result := result ++ (if authQop then
          ascii ", nc=" ++ nc ++ ascii ", cnonce=\"" ++ cnonce ++
            ascii "\", qop=auth, algorithm=MD5"
        else [])
      let result := result ++ (if mapHas authMap (ascii "opaque") then
          ascii ", opaque=\"" ++ mapGet authMap (ascii "opaque") ++ [34]
        else [])
      some result

/-! ## Chunker decode loop (chunker.go, Chunker.Start)

The multipart body is abstracted as the sequence of results its reader
produces: each element is either a decoded part (NextPart, ReadAll and
Close all succeeded) or a read error from one of those three calls;
exhausting the list is the io.EOF return of NextPart.  The stop channel
and the rate-limit ticker are oracles indexed by the loop iteration:
`stop i` tells whether the stop channel is closed at the iteration-i
check, `tick i` whether ticker.C holds a pending tick at the
iteration-i non-blocking select. -/

inductive PartResult where
  | ok (data : List Nat)
  | err (msg : String)
deriving DecidableEq, Repr

/-- The outcome of the decode loop: the frames sent to the sink channel
in order, and the `failure` variable at loop exit (`none` is the clean
end printed as stopped, `some` is printed as failed). -/
structure ChunkOutcome where
  delivered : List (List Nat)
  failure : Option String
deriving DecidableEq, Repr

/-- The ChunkLoop body of Chunker.Start, mirroring the source order:
NextPart EOF ends cleanly; any read error records it and ends; a
zero-length part records the error received final chunk of size 0 and
ends; then the stop check ends cleanly; then, when rate limiting is on
and this is not the first frame, a missing tick skips the frame; else
the frame is delivered and firstFrame clears. -/
def chunkLoop (rateLimited : Bool) (stop tick : Nat → Bool) :
    List PartResult → Bool → Nat → ChunkOutcome
  | [], _, _ => ⟨[], none⟩
  | .err e :: _, _, _ => ⟨[], some e⟩
  | .ok data :: rest, firstFrame, i =>
      if data.length = 0 then ⟨[], some "received final chunk of size 0"⟩
      else if stop i then ⟨[], none⟩
      else if !firstFrame && rateLimited && !(tick i) then
        chunkLoop rateLimited stop tick rest firstFrame (i + 1)
      else
        let r := chunkLoop rateLimited stop tick rest false (i + 1)
        ⟨data :: r.delivered, r.failure⟩

/-- Chunker.Start: the loop starts with firstFrame true at iteration 0;
`ratePositive` is the chunker.rate > 0 test that decides whether a
ticker exists. -/
def chunkerStart (ratePositive : Bool) (stop tick : Nat → Bool)
    (parts : List PartResult) : ChunkOutcome :=
  chunkLoop ratePositive stop tick parts true 0

/-- Specification-side helper for the rate-limited loop: keep part `j`
(processed at iteration `i + j`) exactly when a tick is pending there. -/
def tickFilter (tick : Nat → Bool) : Nat → List (List Nat) → List (List Nat)
  | _, [] => []
  | i, d :: rest =>
      if tick i then d :: tickFilter tick (i + 1) rest else tickFilter tick (i + 1) rest

/-! ## Connect (chunker.go, Chunker.Connect)

HTTP responses are oracles: `r1` answers the first GET, `r2` the
digest retry when one happens.  Network transport errors are not
modelled (the oracle always yields a response); the Authorization
header computed before the retry does not influence any observable
below, because the retry answer is the oracle `r2`. -/

/-- An upstream HTTP response: status code, WWW-Authenticate value and
Content-Type value. -/
structure Resp where
  status : Nat
  wwwAuth : List Nat
  contentType : List Nat
deriving DecidableEq, Repr

/-- Chunker credentials configuration. -/
structure ChunkerCfg where
  username : List Nat
  password : List Nat
  digest : Bool
deriving DecidableEq, Repr

/-- chunker.go basicAuthEnabled. -/
def basicAuthEnabled (c : ChunkerCfg) : Bool :=
  !c.username.isEmpty && !c.password.isEmpty && !c.digest

/-- chunker.go digestAuthEnabled. -/
def digestAuthEnabled (c : ChunkerCfg) : Bool :=
  !c.username.isEmpty && !c.password.isEmpty && c.digest

/-- chunker.go digestAuthRequested: a 401 whose WWW-Authenticate value
starts with Digest and a space. -/
def digestAuthRequested (r : Resp) : Bool :=
  r.status == 401 && goHasPfx (ascii "Digest ") r.wwwAuth

/-- chunker.go parseMediaType, one parameter segment: split at the
first equals sign, with a missing value read as empty and a quoted
value of length above one unquoted. -/
def mediaParam (part : List Nat) : List Nat × List Nat :=
  match goSplitN2 61 part with
  | k :: v :: _ =>
      (k, if v.length > 1 && v.head? == some 34 && v.getLast? == some 34 then
        (v.drop 1).dropLast else v)
  | [k] => (k, [])
  | [] => ([], [])

/-- chunker.go parseMediaType: the first semicolon field (trimmed) is
the media type, the rest are parameters. -/
def parseMediaType (ct : List Nat) : List Nat × List (List Nat × List Nat) :=
  match (goSplit 59 ct).map goTrimSpace with
  | [] => ([], [])
  | m :: rest => (m, rest.map mediaParam)

/-- chunker.go getBoundary: require a multipart media type and a
non-empty boundary parameter. -/
def getBoundary (r : Resp) : Except String (List Nat) :=
  let mp := parseMediaType r.contentType
  if !goHasPfx (ascii "multipart/") mp.1 then .error "unexpected media type"
  else
    let boundary := mapGet mp.2 (ascii "boundary")
    if boundary.isEmpty then .error "boundary not found" else .ok boundary

/-- The observables of one Connect() call: how many upstream requests
were issued, whether the digest retry happened, whether the body of the
final response was closed before returning, and the returned error or
negotiated boundary. -/
structure ConnectResult where
  requests : Nat
  retried : Bool
  closedFinal : Bool
  outcome : Except String (List Nat)
deriving Repr

/-- chunker.go Connect: issue the GET (answer `r1`); when digest auth
is configured and `r1` requests it, close that body and retry once with
the computed Authorization header (answer `r2`); a non-200 final status
closes the body and fails; otherwise the boundary is negotiated, with
failure also closing the body. -/
def connect (cfg : ChunkerCfg) (r1 r2 : Resp) : ConnectResult :=
  let retried := digestAuthEnabled cfg && digestAuthRequested r1
  let resp := if retried then r2 else r1
  let requests := if retried then 2 else 1
  if resp.status ≠ 200 then ⟨requests, retried, true, .error "request failed"⟩
  else
    match getBoundary resp with
    | .error e => ⟨requests, retried, true, .error e⟩
    | .ok b => ⟨requests, retried, false, .ok b⟩

/-! ## Broadcast hub (pubsub.go)

The single-threaded event loop is modelled as a step function over the
hub state; the four select cases are the four event kinds.  A frame
arrival leaves the hub state unchanged (doPublish touches only
subscriber channels; it is modelled separately below).  Side effects on
the chunker and on subscriber channels are reported as actions.
Connect() is external input, so the subscribe event carries the oracle
of its outcome. -/

inductive ChunkerSt where
  | neverStarted
  | running
  | stopped
deriving DecidableEq, Repr

/-- chunker.go Started(): stop is non-nil and not yet closed. -/
def startedB : ChunkerSt → Bool
  | .running => true
  | _ => false

structure HubState where
  subs : List Nat
  chunker : ChunkerSt
  pubOpen : Bool
  timerArmed : Bool
deriving DecidableEq, Repr

inductive HubEvent where
  | frame (data : List Nat)
  | frameClosed
  | subscribe (id : Nat) (connectOk : Bool)
  | unsubscribe (id : Nat)
  | timerFire
deriving DecidableEq, Repr

inductive HubAction where
  | connect
  | chunkerGo
  | chunkerStop
  | closeSub (id : Nat)
deriving DecidableEq, Repr

/-- pubsub.go startChunker: when Started() already holds, return nil
without touching anything; otherwise Connect() (outcome `connectOk`),
and on success open pubChan and launch the reader. -/
def startChunker (s : HubState) (connectOk : Bool) :
    HubState × List HubAction × Bool :=
  if startedB s.chunker then (s, [], true)
  else if connectOk then
    ({ s with chunker := .running, pubOpen := true }, [.connect, .chunkerGo], true)
  else (s, [.connect], false)

/-- pubsub.go stopSubscribers: close every subscriber channel (the
subscriber set itself is not changed). -/
def stopSubscribers (s : HubState) : List HubAction :=
  s.subs.map HubAction.closeSub

/-- pubsub.go doSubscribe: add the subscriber; the first subscriber
triggers startChunker, whose failure closes all subscriber channels. -/
def doSubscribe (s : HubState) (id : Nat) (connectOk : Bool) :
    HubState × List HubAction :=
  let s1 : HubState := { s with subs := s.subs ++ [id] }
  if s1.subs.length = 1 then
    match startChunker s1 connectOk with
    | (s2, acts, true) => (s2, acts)
    | (s2, acts, false) => (s2, acts ++ stopSubscribers s2)
  else (s1, [])

/-- pubsub.go doUnsubscribe: remove the subscriber; when the set
empties, drain and rearm the idle timer. -/
def doUnsubscribe (s : HubState) (id : Nat) : HubState :=
  let s1 : HubState := { s with subs := s.subs.erase id }
  if s1.subs.isEmpty then { s1 with timerArmed := true } else s1

/-- pubsub.go stopChunker: when pubChan is non-nil, Stop() the chunker
(closing its stop channel); pubChan becomes nil either way. -/
def stopChunker (s : HubState) : HubState × List HubAction :=
  if s.pubOpen then
    ({ s with chunker := .stopped, pubOpen := false }, [.chunkerStop])
  else ({ s with pubOpen := false }, [])

/-- One iteration of the pubsub.go event loop select. -/
def hubStep (s : HubState) : HubEvent → HubState × List HubAction
  | .frame _ => (s, [])
  | .frameClosed =>
      let r := stopChunker s
      (r.1, r.2 ++ stopSubscribers r.1)
  | .subscribe id ok => doSubscribe s id ok
  | .unsubscribe id => (doUnsubscribe s id, [])
  | .timerFire =>
      let s0 : HubState := { s with timerArmed := false }
      if s0.subs.isEmpty then stopChunker s0 else (s0, [])

/-- Run the hub loop over an event sequence, accumulating actions. -/
def hubRun (s : HubState) : List HubEvent → HubState × List HubAction
  | [] => (s, [])
  | e :: es =>
      let r := hubStep s e
      let r2 := hubRun r.1 es
      (r2.1, r.2 ++ r2.2)

/-- pubsub.go doPublish, one fan-out step: each subscriber gets the
frame appended to its received sequence exactly when its channel is
ready to receive (the non-blocking send succeeds); otherwise the frame
is dropped for it.  `recv` maps a subscriber id to what it has
received so far. -/
def doPublish (ready : Nat → Bool) (subs : List Nat)
    (recv : Nat → List (List Nat)) (data : List Nat) : Nat → List (List Nat) :=
  fun i => if i ∈ subs ∧ ready i then recv i ++ [data] else recv i

/-- Publish a sequence of frames, one doPublish step each; `ready k i`
tells whether subscriber `i` is ready at publication step `k`. -/
def publishAll (ready : Nat → Nat → Bool) (subs : List Nat) :
    List (List Nat) → Nat → (Nat → List (List Nat)) → (Nat → List (List Nat))
  | [], _, recv => recv
  | d :: ds, k, recv => publishAll ready subs ds (k + 1) (doPublish (ready k) subs recv d)

/-! ## Per-client handler (pubsub.go, PubSub.ServeHTTP)

The model starts after the method and flusher checks and the
subscription; the events are what the select inside the loop can see:
a frame from the subscriber channel, the channel closing, or the
request context ending.  `writeOk k` is the oracle for the part
create and write calls of the k-th received frame; the generated
multipart boundary is random and not modelled. -/

inductive ClientEvent where
  | chunk (data : List Nat)
  | closed
  | ctxDone
deriving DecidableEq, Repr

/-- The observables of one ServeHTTP call: the response status (200
from the first frame header write or from the multipart close, 503
from the stream-failed branch, none when nothing was written yet),
the frames written out, how many frames were received from the
channel, and whether the handler has returned. -/
structure ServeResult where
  status : Option Nat
  parts : List (List Nat)
  received : Nat
  exited : Bool
deriving DecidableEq, Repr

/-- The code after the LOOP label exits: with headers unsent and the
last receive not ok, write the 503 stream-failed error; otherwise the
multipart writer closes (having sent 200 headers on the first frame). -/
def serveExit (chunkOk headersSent : Bool) (acc : List (List Nat))
    (received : Nat) : ServeResult :=
  if !headersSent && !chunkOk then ⟨some 503, acc, received, true⟩
  else ⟨some 200, acc, received, true⟩

/-- The receive loop of ServeHTTP.  chunkOk starts false and is set by
each channel receive (false when the channel closed); a context-done
exit leaves it at its previous value.  A frame sends the 200 header
first when needed, then writes the part; a failed part create or write
returns immediately. -/
def serveLoop (writeOk : Nat → Bool) :
    List ClientEvent → Bool → Bool → Nat → List (List Nat) → ServeResult
  | [], _, headersSent, received, acc =>
      ⟨if headersSent then some 200 else none, acc, received, false⟩
  | .closed :: _, _, headersSent, received, acc =>
      serveExit false headersSent acc received
  | .ctxDone :: _, chunkOk, headersSent, received, acc =>
      serveExit chunkOk headersSent acc received
  | .chunk d :: es, _, _, received, acc =>
      if writeOk received then
        serveLoop writeOk es true true (received + 1) (acc ++ [d])
      else ⟨some 200, acc, received + 1, true⟩

/-- PubSub.ServeHTTP from the subscription onward. -/
def serveHTTP (writeOk : Nat → Bool) (es : List ClientEvent) : ServeResult :=
  serveLoop writeOk es false false 0 []

/-! ## Theorems -/

set_option maxRecDepth 20000

/-- C1 counterexample: on the two-part body with sizes 100 then 0, the
decode loop does record a failure — the zero-length final part is
treated as the error received final chunk of size 0, not as a clean
end, refuting the claim that no failure is recorded. -/
theorem c1_counterexample :
    (chunkerStart false (fun _ => false) (fun _ => false)
      [.ok (List.replicate 100 17), .ok []]).failure ≠ none ∧
    (chunkerStart false (fun _ => false) (fun _ => false)
      [.ok (List.replicate 100 17), .ok []]).delivered = [List.replicate 100 17] := by
  decide

/-- C1 (amended): for every body whose parts have sizes 100 then 0
bytes (no rate limit, no stop request), the decode loop delivers
exactly the 100-byte frame and then terminates with the failure
received final chunk of size 0 recorded: the zero-length final part is
treated as an error end, not as a clean end-of-stream. -/
theorem c1_zero_part_is_error (data : List Nat) (tick : Nat → Bool)
    (h : data.length = 100) :
    chunkerStart false (fun _ => false) tick [.ok data, .ok []] =
      ⟨[data], some "received final chunk of size 0"⟩ := by
  have hlen : data.length ≠ 0 := by omega
  simp [chunkerStart, chunkLoop, hlen]

theorem c1_zero_part_is_error_witness :
    (List.replicate 100 17).length = 100 ∧
    chunkerStart false (fun _ => false) (fun _ => false)
      [.ok (List.replicate 100 17), .ok []] =
      ⟨[List.replicate 100 17], some "received final chunk of size 0"⟩ :=
  ⟨by decide, c1_zero_part_is_error (List.replicate 100 17) (fun _ => false) (by decide)⟩

/-- Rate-limited decode loop after the first delivery: with the stop
channel never signalled and every part decoding to non-empty data,
part `j` of the remaining stream (processed at iteration `i + j`) is
delivered exactly when a tick is pending there, and the loop ends
cleanly. -/
theorem chunkLoop_tickFilter (tick : Nat → Bool) (parts : List (List Nat))
    (h : ∀ d ∈ parts, d ≠ []) (i : Nat) :
    chunkLoop true (fun _ => false) tick (parts.map .ok) false i =
      ⟨tickFilter tick i parts, none⟩ := by
  induction parts generalizing i with
  | nil => simp [chunkLoop, tickFilter]
  | cons d rest ih =>
      have hd : d.length ≠ 0 := by
        simpa [List.length_eq_zero] using h d (by simp)
      have hrest : ∀ x ∈ rest, x ≠ [] := fun x hx => h x (by simp [hx])
      cases htick : tick i with
      | false => simp [chunkLoop, tickFilter, hd, htick, ih hrest]
      | true => simp [chunkLoop, tickFilter, hd, htick, ih hrest]

/-- C5: with a positive max frame rate configured (so a ticker exists),
no stop request, and every part decoding to non-empty data, the loop
always delivers the first decoded frame; each later frame is delivered
exactly when a tick is pending at its iteration and is silently
dropped (the loop continues without sending) otherwise; the loop then
ends cleanly. -/
theorem c5_rate_limit (parts : List (List Nat)) (tick : Nat → Bool)
    (h : ∀ d ∈ parts, d ≠ []) :
    chunkerStart true (fun _ => false) tick (parts.map .ok) =
      ⟨(match parts with
        | [] => []
        | d :: rest => d :: tickFilter tick 1 rest), none⟩ := by
  cases parts with
  | nil => simp [chunkerStart, chunkLoop]
  | cons d rest =>
      have hd : d.length ≠ 0 := by
        simpa [List.length_eq_zero] using h d (by simp)
      have hrest : ∀ x ∈ rest, x ≠ [] := fun x hx => h x (by simp [hx])
      simp [chunkerStart, chunkLoop, hd, chunkLoop_tickFilter tick rest hrest 1]

theorem c5_rate_limit_witness :
    chunkerStart true (fun _ => false) (fun i => i % 2 == 0)
      ([[1], [2], [3], [4]].map .ok) = ⟨[[1], [3]], none⟩ := by
  have := c5_rate_limit [[1], [2], [3], [4]] (fun i => i % 2 == 0) (by decide)
  simpa [tickFilter] using this

/-- C4: one doPublish step appends the frame for exactly the ready
subscribers; consequently over any publication sequence an
always-ready subscriber receives every frame in publication order,
while a never-ready subscriber receives nothing — one stalled client
does not disturb the other. -/
theorem c4_fanout (subs : List Nat) (recv : Nat → List (List Nat))
    (frames : List (List Nat)) (ready : Nat → Nat → Bool) (a b k : Nat)
    (ha : a ∈ subs) (hra : ∀ j, ready j a = true) (hrb : ∀ j, ready j b = false) :
    publishAll ready subs frames k recv a = recv a ++ frames ∧
      publishAll ready subs frames k recv b = recv b := by
  induction frames generalizing recv k with
  | nil => simp [publishAll]
  | cons d ds ih =>
      have step := ih (doPublish (ready k) subs recv d) (k + 1)
      constructor
      · rw [publishAll, step.1, doPublish]
        simp [ha, hra k]
      · rw [publishAll, step.2, doPublish]
        simp [hrb k]

theorem c4_fanout_witness :
    publishAll (fun _ i => i == 0) [0, 1] [[1], [2], [3]] 0 (fun _ => []) 0 =
      [[1], [2], [3]] ∧
    publishAll (fun _ i => i == 0) [0, 1] [[1], [2], [3]] 0 (fun _ => []) 1 = [] := by
  have := c4_fanout [0, 1] (fun _ => []) [[1], [2], [3]] (fun _ i => i == 0) 0 1 0
    (by decide) (fun j => rfl) (fun j => rfl)
  simpa using this

/-- Once the 200 header went out, every continuation of the handler
loop reports status 200, never 503. -/
theorem serveLoop_headers_200 (w : Nat → Bool) (es : List ClientEvent)
    (cOk : Bool) (received : Nat) (acc : List (List Nat)) :
    (serveLoop w es cOk true received acc).status = some 200 := by
  induction es generalizing cOk received acc with
  | nil => simp [serveLoop]
  | cons e rest ih =>
      cases e with
      | chunk d =>
          cases hw : w received with
          | true => simp [serveLoop, hw, ih]
          | false => simp [serveLoop, hw]
      | closed => simp [serveLoop, serveExit]
      | ctxDone => simp [serveLoop, serveExit]

/-- C8: when the subscriber channel closes before any frame was
delivered, the handler responds 503; when a frame arrives first, the
200 header goes out with the first frame and the response status is
200 on every subsequent path — no 503 is ever sent. -/
theorem c8_first_frame_status (w : Nat → Bool) (es : List ClientEvent)
    (d : List Nat) :
    (serveHTTP w (.closed :: es)).status = some 503 ∧
      (serveHTTP w (.chunk d :: es)).status = some 200 := by
  constructor
  · simp [serveHTTP, serveLoop, serveExit]
  · cases hw : w 0 with
    | true => simp [serveHTTP, serveLoop, hw, serveLoop_headers_200]
    | false => simp [serveHTTP, serveLoop, hw]

/-- The received counter of the handler loop never decreases. -/
theorem serveLoop_received_le (w : Nat → Bool) (es : List ClientEvent)
    (cOk hs : Bool) (received : Nat) (acc : List (List Nat)) :
    received ≤ (serveLoop w es cOk hs received acc).received := by
  induction es generalizing cOk hs received acc with
  | nil => simp [serveLoop]
  | cons e rest ih =>
      cases e with
      | chunk d =>
          cases hw : w received with
          | true =>
              have h2 := ih true true (received + 1) (acc ++ [d])
              simp [serveLoop, hw]
              omega
          | false => simp [serveLoop, hw]
      | closed =>
          cases hs <;> cases cOk <;> simp [serveLoop, serveExit]
      | ctxDone =>
          cases hs <;> cases cOk <;> simp [serveLoop, serveExit]

/-- C9: every exit of the handler with zero frames received — the
channel closing, but also the client disconnecting (context done)
before any frame — takes the 503 stream-failed branch, because the
chunk-ok flag starts false and the context-done path leaves it
untouched. -/
theorem c9_zero_frames_503 (w : Nat → Bool) (es : List ClientEvent)
    (hex : (serveHTTP w es).exited = true)
    (hrec : (serveHTTP w es).received = 0) :
    (serveHTTP w es).status = some 503 := by
  cases es with
  | nil => simp [serveHTTP, serveLoop] at hex
  | cons e rest =>
      cases e with
      | chunk d =>
          exfalso
          cases hw : w 0 with
          | true =>
              have h1 := serveLoop_received_le w rest true true 1 [d]
              simp [serveHTTP, serveLoop, hw] at hrec
              omega
          | false => simp [serveHTTP, serveLoop, hw] at hrec
      | closed => simp [serveHTTP, serveLoop, serveExit]
      | ctxDone => simp [serveHTTP, serveLoop, serveExit]

theorem c9_zero_frames_503_witness :
    (serveHTTP (fun _ => true) [.ctxDone]).status = some 503 :=
  c9_zero_frames_503 (fun _ => true) [.ctxDone] (by decide) (by decide)

/-- While the chunker is running, one hub loop iteration on any event
other than a timer fire or an upstream channel close leaves the
chunker running and invokes no Connect: the startChunker guard returns
early whenever Started() already holds. -/
theorem hubStep_running_no_connect (s : HubState) (e : HubEvent)
    (hrun : s.chunker = .running)
    (hnt : e ≠ .timerFire) (hnc : e ≠ .frameClosed) :
    (hubStep s e).1.chunker = .running ∧
      HubAction.connect ∉ (hubStep s e).2 := by
  cases e with
  | frame d => simpa [hubStep] using hrun
  | frameClosed => exact absurd rfl hnc
  | timerFire => exact absurd rfl hnt
  | subscribe id ok =>
      by_cases h1 : s.subs.length + 1 = 1 <;>
        simp [hubStep, doSubscribe, startChunker, startedB, hrun, h1]
  | unsubscribe id =>
      by_cases h1 : (s.subs.erase id).isEmpty <;>
        simp [hubStep, doUnsubscribe, hrun, h1]

/-- While the chunker is running, a hub event sequence free of timer
fires and upstream closes keeps it running and never invokes Connect. -/
theorem hubRun_running_no_connect (s : HubState) (es : List HubEvent)
    (hrun : s.chunker = .running)
    (hes : ∀ e ∈ es, e ≠ .timerFire ∧ e ≠ .frameClosed) :
    (hubRun s es).1.chunker = .running ∧
      HubAction.connect ∉ (hubRun s es).2 := by
  induction es generalizing s with
  | nil => simpa [hubRun] using hrun
  | cons e rest ih =>
      have he := hes e (by simp)
      have step := hubStep_running_no_connect s e hrun he.1 he.2
      have tail := ih (hubStep s e).1 step.1 (fun x hx => hes x (by simp [hx]))
      refine ⟨by simpa [hubRun] using tail.1, ?_⟩
      simp only [hubRun, List.mem_append]
      intro hmem
      rcases hmem with h | h
      · exact step.2 h
      · exact tail.2 h

/-- C2: with the chunker running, unsubscribing the last subscriber
and subscribing again with no timer fire (the grace duration has not
elapsed) and no upstream close in between never invokes Connect a
second time — the whole window performs zero Connect calls, keeping at
most one upstream connection open. -/
theorem c2_no_reconnect (s : HubState) (x y : Nat) (ok : Bool)
    (es : List HubEvent) (hrun : s.chunker = .running)
    (hes : ∀ e ∈ es, e ≠ .timerFire ∧ e ≠ .frameClosed) :
    HubAction.connect ∉
      (hubRun s ([.unsubscribe x] ++ es ++ [.subscribe y ok])).2 := by
  refine (hubRun_running_no_connect s _ hrun ?_).2
  intro e he
  simp only [List.mem_append, List.mem_singleton] at he
  rcases he with (h | h) | h
  · subst h; exact ⟨by simp, by simp⟩
  · exact hes e h
  · subst h; exact ⟨by simp, by simp⟩

theorem c2_no_reconnect_witness :
    HubAction.connect ∉
      (hubRun ⟨[5], .running, true, false⟩
        [.unsubscribe 5, .subscribe 7 true]).2 := by
  have := c2_no_reconnect ⟨[5], .running, true, false⟩ 5 7 true [] rfl
    (by simp)
  simpa using this

/-- C7: Connect issues at most two upstream requests; the digest retry
happens exactly when digest auth is configured and the first response
is a 401 carrying a Digest challenge (so a 401 on the retry is final,
no third request exists); and whenever the final response status is
not 200, Connect returns an error after closing that response body. -/
theorem c7_connect_retry (cfg : ChunkerCfg) (r1 r2 : Resp) :
    (connect cfg r1 r2).requests ≤ 2 ∧
    (connect cfg r1 r2).retried =
      (digestAuthEnabled cfg && digestAuthRequested r1) ∧
    ((if (connect cfg r1 r2).retried then r2 else r1).status ≠ 200 →
      (∃ e, (connect cfg r1 r2).outcome = Except.error e) ∧
        (connect cfg r1 r2).closedFinal = true) := by
  by_cases hr : (digestAuthEnabled cfg && digestAuthRequested r1) = true
  · by_cases h200 : r2.status = 200
    · cases hb : getBoundary r2 with
      | error e => simp [connect, hr, h200, hb]
      | ok b => simp [connect, hr, h200, hb]
    · simp [connect, hr, h200]
  · by_cases h200 : r1.status = 200
    · cases hb : getBoundary r1 with
      | error e => simp [connect, hr, h200, hb]
      | ok b => simp [connect, hr, h200, hb]
    · simp [connect, hr, h200]

theorem c7_connect_retry_witness :
    (∃ e, (connect ⟨ascii "u", ascii "p", true⟩
        ⟨401, ascii "Digest realm=\"r\"", []⟩ ⟨401, [], []⟩).outcome =
        Except.error e) ∧
      (connect ⟨ascii "u", ascii "p", true⟩
        ⟨401, ascii "Digest realm=\"r\"", []⟩ ⟨401, [], []⟩).closedFinal = true :=
  (c7_connect_retry ⟨ascii "u", ascii "p", true⟩
    ⟨401, ascii "Digest realm=\"r\"", []⟩ ⟨401, [], []⟩).2.2 (by decide)

/-- C6 counterexample: a Digest challenge containing neither realm nor
nonce is not rejected — digestAuthBuild still produces a full
Authorization value, reading the missing keys as empty strings; no
malformed-challenge failure exists in the code. -/
theorem c6_counterexample :
    digestAuthBuild (ascii "joe") (ascii "secret") (ascii "/cam")
      (ascii "Digest opaque=\"abc\"") (ascii "00") =
    some (ascii "username=\"joe\", realm=\"\", nonce=\"\", response=\"322fd00302bc3890a226b7b56db1a8cd\", uri=\"/cam\", opaque=\"abc\"") := by
  decide

/-- C6 (amended): the challenge is not validated; for every credential
set and cnonce, a challenge with only a qop key (no realm, no nonce)
still yields an Authorization value, the missing keys reading as
empty. -/
theorem c6_no_challenge_validation (user pass uri cnonce : List Nat) :
    (digestAuthBuild user pass uri (ascii "Digest qop=\"auth\"") cnonce).isSome =
      true := by
  have hp : parseChallenge (goTrimPfx (ascii "Digest ") (ascii "Digest qop=\"auth\"")) =
      some ([(ascii "qop", ascii "auth")], true) := by decide
  simp [digestAuthBuild, hp]

/-- A byte list containing the equals byte splits into exactly a key
and a value under the SplitN model. -/
theorem goSplitN2_pair (s : List Nat) (h : 61 ∈ s) :
    ∃ k v, goSplitN2 61 s = [k, v] := by
  induction s with
  | nil => simp at h
  | cons c rest ih =>
      by_cases hc : c = 61
      · subst hc
        exact ⟨[], rest, by simp [goSplitN2]⟩
      · have hr : 61 ∈ rest := by
          rcases List.mem_cons.mp h with h1 | h1
          · exact absurd h1.symm hc
          · exact h1
        obtain ⟨k, v, hkv⟩ := ih hr
        exact ⟨c :: k, v, by simp [goSplitN2, hc, hkv]⟩

/-- dropWhile never removes an element the predicate rejects. -/
theorem mem_dropWhile_of_mem (p : Nat → Bool) (x : Nat) (hx : p x = false) :
    ∀ l : List Nat, x ∈ l → x ∈ l.dropWhile p := by
  intro l
  induction l with
  | nil => simp
  | cons c rest ih =>
      intro hm
      by_cases hc : p c = true
      · rcases List.mem_cons.mp hm with h1 | h1
        · subst h1; simp [hc] at hx
        · simpa [List.dropWhile_cons, hc] using ih h1
      · simp [List.dropWhile_cons, hc, hm]

/-- Trimming whitespace keeps an equals byte. -/
theorem mem_goTrimSpace (s : List Nat) (h : 61 ∈ s) : 61 ∈ goTrimSpace s := by
  have h1 := mem_dropWhile_of_mem isSpaceByte 61 (by decide) s h
  have h2 : (61 : Nat) ∈ (s.dropWhile isSpaceByte).reverse := by simpa using h1
  have h3 := mem_dropWhile_of_mem isSpaceByte 61 (by decide) _ h2
  simpa [goTrimSpace] using h3

/-- The challenge-parsing fold succeeds on every segment list whose
segments each contain an equals byte. -/
theorem parse_foldl_isSome (segs : List (List Nat))
    (h : ∀ seg ∈ segs, 61 ∈ seg) (m : List (List Nat × List Nat)) (q : Bool) :
    (segs.foldl parseSegment (some (m, q))).isSome = true := by
  induction segs generalizing m q with
  | nil => simp
  | cons seg rest ih =>
      have hseg : 61 ∈ goTrimSpace seg := mem_goTrimSpace seg (h seg (by simp))
      obtain ⟨k, v, hkv⟩ := goSplitN2_pair _ hseg
      have hrest : ∀ x ∈ rest, 61 ∈ x := fun x hx => h x (by simp [hx])
      simp only [List.foldl_cons, parseSegment, hkv]
      exact ih hrest _ _

/-- C10: the digest challenge parser is total exactly under the
precondition that every comma-separated segment of the challenge text
after the Digest prefix contains an equals sign: under it the
unguarded kv[1] access is in bounds and digestAuthBuild returns a
value for every input, while a segment without an equals sign (the
challenge Digest realm) makes the access panic, modelled as none. -/
theorem c10_parser_totality (user pass uri header cnonce : List Nat)
    (h : ∀ seg ∈ goSplit 44 (goTrimPfx (ascii "Digest ") header), 61 ∈ seg) :
    (digestAuthBuild user pass uri header cnonce).isSome = true ∧
      digestAuthBuild user pass uri (ascii "Digest realm") cnonce = none := by
  constructor
  · have hp : (parseChallenge (goTrimPfx (ascii "Digest ") header)).isSome = true :=
      parse_foldl_isSome _ h [] false
    obtain ⟨⟨m, q⟩, hmq⟩ := Option.isSome_iff_exists.mp hp
    simp [digestAuthBuild, hmq]
  · have hp2 : parseChallenge (goTrimPfx (ascii "Digest ") (ascii "Digest realm")) =
        none := by decide
    simp [digestAuthBuild, hp2]

theorem c10_parser_totality_witness :
    (digestAuthBuild (ascii "u") (ascii "p") (ascii "/")
      (ascii "Digest realm=\"r\", nonce=\"n\"") (ascii "00")).isSome = true :=
  (c10_parser_totality (ascii "u") (ascii "p") (ascii "/")
    (ascii "Digest realm=\"r\", nonce=\"n\"") (ascii "00") (by decide)).1

/-- The Split model never returns an empty field list. -/
theorem goSplit_ne_nil (sep : Nat) (l : List Nat) : goSplit sep l ≠ [] := by
  cases l with
  | nil => simp [goSplit]
  | cons c rest =>
      simp only [goSplit]
      cases h : goSplit sep rest with
      | nil => simp
      | cons g gs => by_cases hc : c = sep <;> simp [hc]

/-- Splitting a separator-free text yields that one field. -/
theorem goSplit_no_sep (sep : Nat) (xs : List Nat) (h : sep ∉ xs) :
    goSplit sep xs = [xs] := by
  induction xs with
  | nil => rfl
  | cons c rest ih =>
      have hc : c ≠ sep := by rintro rfl; exact h (List.mem_cons_self _ _)
      have hrest : sep ∉ rest := fun hr => h (List.mem_cons_of_mem c hr)
      simp [goSplit, ih hrest, hc]

/-- Splitting at the first separator after a separator-free prefix. -/
theorem goSplit_append_sep (sep : Nat) (xs ys : List Nat) (h : sep ∉ xs) :
    goSplit sep (xs ++ sep :: ys) = xs :: goSplit sep ys := by
  induction xs with
  | nil =>
      simp only [List.nil_append, goSplit]
      cases hg : goSplit sep ys with
      | nil => exact absurd hg (goSplit_ne_nil sep ys)
      | cons g gs => simp
  | cons c rest ih =>
      have hc : c ≠ sep := by rintro rfl; exact h (List.mem_cons_self _ _)
      have hrest : sep ∉ rest := fun hr => h (List.mem_cons_of_mem c hr)
      simp [goSplit, ih hrest, hc]

/-- SplitN at the first equals sign after an equals-free prefix. -/
theorem goSplitN2_append_sep (xs ys : List Nat) (h : 61 ∉ xs) :
    goSplitN2 61 (xs ++ 61 :: ys) = [xs, ys] := by
  induction xs with
  | nil => simp [goSplitN2]
  | cons c rest ih =>
      have hc : c ≠ 61 := by rintro rfl; exact h (List.mem_cons_self _ _)
      have hrest : 61 ∉ rest := fun hr => h (List.mem_cons_of_mem c hr)
      simp [goSplitN2, ih hrest, hc]

/-- Trimming quotes from a value wrapped in one quote on each side
recovers the value, for values free of the quote byte. -/
theorem goTrimQuote_wrap (R : List Nat) (h : 34 ∉ R) :
    goTrimQuote (34 :: (R ++ [34])) = R := by
  unfold goTrimQuote
  have step1 : (34 :: (R ++ [34])).dropWhile (fun c => c == 34) =
      (R ++ [34]).dropWhile (fun c => c == 34) := by
    rw [List.dropWhile_cons]; simp
  rw [step1]
  cases R with
  | nil => simp
  | cons r t =>
      have hr : r ≠ 34 := by
        rintro rfl; exact h (List.mem_cons_self _ _)
      have step2 : ((r :: t) ++ [34]).dropWhile (fun c => c == 34) =
          (r :: t) ++ [34] := by
        rw [List.cons_append, List.dropWhile_cons]
        simp [hr]
      rw [step2]
      have hrev : ((r :: t) ++ [34]).reverse = 34 :: (r :: t).reverse := by simp
      rw [hrev, List.dropWhile_cons]
      simp only [beq_self_eq_true, if_true]
      cases hv : (r :: t).reverse with
      | nil => simp at hv
      | cons d u =>
          have hd : d ∈ (r :: t) :=
            List.mem_reverse.mp (by rw [hv]; exact List.mem_cons_self _ _)
          have hd34 : d ≠ 34 := by rintro rfl; exact h hd
          rw [List.dropWhile_cons]
          simp only [hd34, beq_iff_eq, if_false]
          rw [← hv, List.reverse_reverse]

/-- A leading space disappears under TrimSpace. -/
theorem goTrimSpace_cons_space (c : Nat) (l : List Nat)
    (hc : isSpaceByte c = true) :
    goTrimSpace (c :: l) = goTrimSpace l := by
  unfold goTrimSpace
  rw [List.dropWhile_cons, hc]
  simp

/-- TrimSpace keeps a text whose first and last bytes are not
whitespace (interior whitespace is untouched). -/
theorem goTrimSpace_cons_concat (c : Nat) (xs : List Nat) (d : Nat)
    (hc : isSpaceByte c = false) (hd : isSpaceByte d = false) :
    goTrimSpace (c :: (xs ++ [d])) = c :: (xs ++ [d]) := by
  unfold goTrimSpace
  rw [List.dropWhile_cons, hc]
  simp only [Bool.false_eq_true, if_false]
  have hrev : (c :: (xs ++ [d])).reverse = d :: (xs.reverse ++ [c]) := by simp
  rw [hrev, List.dropWhile_cons, hd]
  simp only [Bool.false_eq_true, if_false]
  rw [← hrev, List.reverse_reverse]

/-- Stripping a literal prefix. -/
theorem goTrimPfx_append (pre rest : List Nat) :
    goTrimPfx pre (pre ++ rest) = rest := by
  unfold goTrimPfx
  have h : pre.isPrefixOf (pre ++ rest) = true := by
    rw [ List.isPrefixOf_iff_prefix]
    exact List.prefix_append pre rest
  simp [h]

/-- C3: for every challenge carrying a realm, a nonce and qop auth
(realm and nonce free of quote and comma bytes) and every injected
cnonce, digestAuthBuild produces the Authorization value whose
response field is MD5(MD5(user:realm:password) : nonce : nc : cnonce
: auth : MD5(GET:uri)) with nc fixed at 00000001; and on the RFC 2617
worked example (Mufasa / Circle Of Life / /dir/index.html with the
canonical nonce and cnonce 0a4f113b) the canonical response hash
6629fae49393a05397450978507c4ef1 comes out. -/
theorem c3_digest_response (user pass uri R N cnonce : List Nat)
    (hR44 : 44 ∉ R) (hR34 : 34 ∉ R) (hN44 : 44 ∉ N) (hN34 : 34 ∉ N) :
    (digestAuthBuild user pass uri
      (ascii "Digest realm=\"" ++ R ++ ascii "\", nonce=\"" ++ N ++ ascii "\", qop=\"auth\"")
      cnonce =
    some (ascii "username=\"" ++ user ++ ascii "\", realm=\"" ++ R ++
      ascii "\", nonce=\"" ++ N ++ ascii "\", response=\"" ++
      MD5.md5Hex (MD5.md5Hex (user ++ colonB ++ R ++ colonB ++ pass) ++ colonB ++
        N ++ colonB ++ ascii "00000001" ++ colonB ++ cnonce ++ colonB ++
        ascii "auth" ++ colonB ++ MD5.md5Hex (ascii "GET:" ++ uri)) ++
      ascii "\", uri=\"" ++ uri ++ [34] ++
      ascii ", nc=" ++ ascii "00000001" ++ ascii ", cnonce=\"" ++ cnonce ++
      ascii "\", qop=auth, algorithm=MD5")) ∧
    digestAuthBuild (ascii "Mufasa") (ascii "Circle Of Life") (ascii "/dir/index.html")
      (ascii "Digest realm=\"testrealm@host.com\", nonce=\"dcd98b7102dd2f0e8b11d0f600bfb0c093\", qop=\"auth\"")
      (ascii "0a4f113b") =
    some (ascii "username=\"Mufasa\", realm=\"testrealm@host.com\", nonce=\"dcd98b7102dd2f0e8b11d0f600bfb0c093\", response=\"6629fae49393a05397450978507c4ef1\", uri=\"/dir/index.html\", nc=00000001, cnonce=\"0a4f113b\", qop=auth, algorithm=MD5") := by
  refine ⟨?_, by decide⟩
  have hA : ascii "Digest realm=\"" = ascii "Digest " ++ ascii "realm=\"" := by decide
  have hauth : goTrimPfx (ascii "Digest ")
      (ascii "Digest realm=\"" ++ R ++ ascii "\", nonce=\"" ++ N ++ ascii "\", qop=\"auth\"") =
      ascii "realm=\"" ++ R ++ ascii "\", nonce=\"" ++ N ++ ascii "\", qop=\"auth\"" := by
    rw [hA]
    simp only [List.append_assoc]
    rw [goTrimPfx_append]
  have hno1 : (44 : Nat) ∉ ascii "realm=\"" ++ (R ++ [34]) := by
    simp only [List.mem_append, List.mem_singleton]
    rintro (h | h | h)
    · revert h; decide
    · exact hR44 h
    · revert h; decide
  have hno2 : (44 : Nat) ∉ ascii " nonce=\"" ++ (N ++ [34]) := by
    simp only [List.mem_append, List.mem_singleton]
    rintro (h | h | h)
    · revert h; decide
    · exact hN44 h
    · revert h; decide
  have hshape : ascii "realm=\"" ++ R ++ ascii "\", nonce=\"" ++ N ++ ascii "\", qop=\"auth\"" =
      (ascii "realm=\"" ++ (R ++ [34])) ++ 44 ::
        ((ascii " nonce=\"" ++ (N ++ [34])) ++ 44 :: ascii " qop=\"auth\"") := by
    have hB : ascii "\", nonce=\"" = 34 :: 44 :: ascii " nonce=\"" := by decide
    have hC : ascii "\", qop=\"auth\"" = 34 :: 44 :: ascii " qop=\"auth\"" := by decide
    rw [hB, hC]
    simp [List.append_assoc]
  have hsplit : goSplit 44
      (ascii "realm=\"" ++ R ++ ascii "\", nonce=\"" ++ N ++ ascii "\", qop=\"auth\"") =
      [ascii "realm=\"" ++ (R ++ [34]), ascii " nonce=\"" ++ (N ++ [34]),
        ascii " qop=\"auth\""] := by
    rw [hshape, goSplit_append_sep 44 _ _ hno1, goSplit_append_sep 44 _ _ hno2,
      goSplit_no_sep 44 _ (by decide)]
  have s1trim : goTrimSpace (ascii "realm=\"" ++ (R ++ [34])) =
      ascii "realm=\"" ++ (R ++ [34]) := by
    have e1 : ascii "realm=\"" ++ (R ++ [34]) = 114 :: ((ascii "ealm=\"" ++ R) ++ [34]) := by
      have l1 : ascii "realm=\"" = 114 :: ascii "ealm=\"" := by decide
      rw [l1]; simp [List.append_assoc]
    rw [e1]
    exact goTrimSpace_cons_concat _ _ _ (by decide) (by decide)
  have s1split : goSplitN2 61 (ascii "realm=\"" ++ (R ++ [34])) =
      [ascii "realm", 34 :: (R ++ [34])] := by
    have e2 : ascii "realm=\"" ++ (R ++ [34]) = ascii "realm" ++ 61 :: (34 :: (R ++ [34])) := by
      have l2 : ascii "realm=\"" = ascii "realm" ++ [61, 34] := by decide
      rw [l2]; simp [List.append_assoc]
    rw [e2]
    exact goSplitN2_append_sep _ _ (by decide)
  have p1 : parseSegment (some ([], false)) (ascii "realm=\"" ++ (R ++ [34])) =
      some ([(ascii "realm", R)], false) := by
    simp only [parseSegment, s1trim, s1split, goTrimQuote_wrap R hR34]
    have k1 : (ascii "realm" == ascii "qop") = false := by decide
    simp [k1]
  have s2trim : goTrimSpace (ascii " nonce=\"" ++ (N ++ [34])) =
      ascii "nonce=\"" ++ (N ++ [34]) := by
    have e3 : ascii " nonce=\"" ++ (N ++ [34]) = 32 :: (ascii "nonce=\"" ++ (N ++ [34])) := by
      have l3 : ascii " nonce=\"" = 32 :: ascii "nonce=\"" := by decide
      rw [l3]; simp
    rw [e3, goTrimSpace_cons_space _ _ (by decide)]
    have e4 : ascii "nonce=\"" ++ (N ++ [34]) = 110 :: ((ascii "once=\"" ++ N) ++ [34]) := by
      have l4 : ascii "nonce=\"" = 110 :: ascii "once=\"" := by decide
      rw [l4]; simp [List.append_assoc]
    rw [e4]
    exact goTrimSpace_cons_concat _ _ _ (by decide) (by decide)
  have s2split : goSplitN2 61 (ascii "nonce=\"" ++ (N ++ [34])) =
      [ascii "nonce", 34 :: (N ++ [34])] := by
    have e5 : ascii "nonce=\"" ++ (N ++ [34]) = ascii "nonce" ++ 61 :: (34 :: (N ++ [34])) := by
      have l5 : ascii "nonce=\"" = ascii "nonce" ++ [61, 34] := by decide
      rw [l5]; simp [List.append_assoc]
    rw [e5]
    exact goSplitN2_append_sep _ _ (by decide)
  have p2 : parseSegment (some ([(ascii "realm", R)], false))
      (ascii " nonce=\"" ++ (N ++ [34])) =
      some ([(ascii "realm", R), (ascii "nonce", N)], false) := by
    simp only [parseSegment, s2trim, s2split, goTrimQuote_wrap N hN34]
    have k2 : (ascii "nonce" == ascii "qop") = false := by decide
    simp [k2]
  have p3 : parseSegment (some ([(ascii "realm", R), (ascii "nonce", N)], false))
      (ascii " qop=\"auth\"") =
      some ([(ascii "realm", R), (ascii "nonce", N), (ascii "qop", ascii "auth")], true) := by
    have p3pre : goSplitN2 61 (goTrimSpace (ascii " qop=\"auth\"")) =
        [ascii "qop", ascii "\"auth\""] := by decide
    simp only [parseSegment, p3pre]
    have v3 : goTrimQuote (ascii "\"auth\"") = ascii "auth" := by decide
    have k3 : (ascii "qop" == ascii "qop") = true := by decide
    have q3 : (goSplit 44 (ascii "auth")).any (fun s => s == ascii "auth") = true := by decide
    simp [v3, k3, q3]
  have hparse : parseChallenge
      (ascii "realm=\"" ++ R ++ ascii "\", nonce=\"" ++ N ++ ascii "\", qop=\"auth\"") =
      some ([(ascii "realm", R), (ascii "nonce", N), (ascii "qop", ascii "auth")], true) := by
    unfold parseChallenge
    rw [hsplit]
    simp only [List.foldl_cons, List.foldl_nil, p1, p2, p3]
  have g1 : mapGet [(ascii "realm", R), (ascii "nonce", N), (ascii "qop", ascii "auth")]
      (ascii "realm") = R := by
    have b1 : (ascii "qop" == ascii "realm") = false := by decide
    have b2 : (ascii "nonce" == ascii "realm") = false := by decide
    have b3 : (ascii "realm" == ascii "realm") = true := by decide
    simp [mapGet, List.find?, b1, b2, b3]
  have g2 : mapGet [(ascii "realm", R), (ascii "nonce", N), (ascii "qop", ascii "auth")]
      (ascii "nonce") = N := by
    have b1 : (ascii "qop" == ascii "nonce") = false := by decide
    have b2 : (ascii "nonce" == ascii "nonce") = true := by decide
    simp [mapGet, List.find?, b1, b2]
  have gHas : mapHas [(ascii "realm", R), (ascii "nonce", N), (ascii "qop", ascii "auth")]
      (ascii "opaque") = false := by
    have b1 : (ascii "realm" == ascii "opaque") = false := by decide
    have b2 : (ascii "nonce" == ascii "opaque") = false := by decide
    have b3 : (ascii "qop" == ascii "opaque") = false := by decide
    simp [mapHas, List.find?, b1, b2, b3]
  unfold digestAuthBuild
  rw [hauth]
  simp only [hparse]
  simp only [g1, g2, gHas]
  simp [List.append_assoc]

theorem c3_digest_response_witness :
    digestAuthBuild (ascii "Mufasa") (ascii "Circle Of Life") (ascii "/dir/index.html")
      (ascii "Digest realm=\"" ++ ascii "testrealm@host.com" ++ ascii "\", nonce=\"" ++
        ascii "dcd98b7102dd2f0e8b11d0f600bfb0c093" ++ ascii "\", qop=\"auth\"")
      (ascii "0a4f113b") =
    some (ascii "username=\"" ++ ascii "Mufasa" ++ ascii "\", realm=\"" ++
      ascii "testrealm@host.com" ++ ascii "\", nonce=\"" ++
      ascii "dcd98b7102dd2f0e8b11d0f600bfb0c093" ++ ascii "\", response=\"" ++
      MD5.md5Hex (MD5.md5Hex (ascii "Mufasa" ++ colonB ++ ascii "testrealm@host.com" ++
        colonB ++ ascii "Circle Of Life") ++ colonB ++
        ascii "dcd98b7102dd2f0e8b11d0f600bfb0c093" ++ colonB ++ ascii "00000001" ++
        colonB ++ ascii "0a4f113b" ++ colonB ++
        ascii "auth" ++ colonB ++ MD5.md5Hex (ascii "GET:" ++ ascii "/dir/index.html")) ++
      ascii "\", uri=\"" ++ ascii "/dir/index.html" ++ [34] ++
      ascii ", nc=" ++ ascii "00000001" ++ ascii ", cnonce=\"" ++ ascii "0a4f113b" ++
      ascii "\", qop=auth, algorithm=MD5") :=
  (c3_digest_response (ascii "Mufasa") (ascii "Circle Of Life") (ascii "/dir/index.html")
    (ascii "testrealm@host.com") (ascii "dcd98b7102dd2f0e8b11d0f600bfb0c093")
    (ascii "0a4f113b") (by decide) (by decide) (by decide) (by decide)).1
